import Mathlib

/-!
# Verification of the mysmarthotel reservation-ingestion pipeline

Shallow embedding of the core of the `mysmarthotel-task` repository:

* the task processor (`apps/worker/src/modules/tasks/tasks.service.ts`,
  `TasksService.handleTaskCreated`),
* the outbox dispatcher (`apps/worker/src/modules/events/events.module.ts`,
  `EventsService.publishNewEvents` / `recoverStaleEvents`),
* the task/event creation transaction (`CreateTaskHandler.execute`),
* the chunked upload assembler (`apps/api/.../services/task.service.ts`,
  `TaskService.handleFileChunk`), restricted to its session-cache effects.

Documents are modelled as Lean structures mirroring the Mongoose schemas
plus the fields the services write; timestamps are integers (seconds);
the external collaborators (MongoDB, Redis, S3, RabbitMQ) are modelled by
their documented per-operation contracts (`updateOne` updates the first
matching document, `SET` discards a Redis TTL, and so on).
-/

namespace SmartHotel

/-- `TaskStatus` from `libs/database/src/task-status.enum.ts`. -/
inductive TaskStatus where
  | pending
  | inProgress
  | completed
  | failed
deriving DecidableEq, Repr

/-- `EventStatus` from `libs/database/src/event-status.enum.ts`. -/
inductive EventStatus where
  | new
  | processing
  | published
  | processed
  | failed
deriving DecidableEq, Repr

/-- `ReservationStatus`: `PENDING`, `CANCELED`, `COMPLETED`. -/
inductive ReservationStatus where
  | pending
  | canceled
  | completed
deriving DecidableEq, Repr

/-- One entry of a Task `errors` array: `{row, error}`. -/
structure RowError where
  row : Nat
  error : String
deriving DecidableEq, Repr

/-- A `Task` document: the schema fields of
`libs/database/src/schemas/task.schema.ts` plus the claim-lease fields
(`workerId`, `processingAt`) written by `TasksService.handleTaskCreated`.
`id` is the store-assigned `_id`. -/
structure Task where
  id : String
  taskId : String
  filePath : String
  originalFileName : String
  status : TaskStatus
  errors : List RowError
  startedAt : Option Int
  completedAt : Option Int
  workerId : Option String
  processingAt : Option Int
deriving DecidableEq, Repr

/-- The payload of a `TaskCreatedEvent`
(`libs/events/src/events/task-created.event.ts`). -/
structure TaskCreatedPayload where
  taskId : String
  filePath : String
  originalFileName : String
deriving DecidableEq, Repr

/-- The embedded envelope stored in an Event document `event` field:
a serialized `TaskCreatedEvent`, i.e. `{eventName, payload}`. -/
structure Envelope where
  eventName : String
  payload : TaskCreatedPayload
deriving DecidableEq, Repr

/-- The `error` object written on an Event.  The fallback path of the task
processor writes `{message, stack}`; the spec claims a
`{message, details}` shape, which this type can also express. -/
structure EventError where
  message : String
  details : Option (List RowError)
  stack : Option String
deriving DecidableEq, Repr

/-- An `Event` (outbox) document, from
`libs/database/src/schemas/event.schema.ts`.  The envelope is stored under
the schema path `event`; the schema has no top-level `payload` path. -/
structure Event where
  id : String
  eventName : String
  event : Envelope
  status : EventStatus
  error : Option EventError
  publishedAt : Option Int
  processedAt : Option Int
  processingAt : Option Int
  workerId : Option String
  createdAt : Int
deriving DecidableEq, Repr

/-- A `Reservation` document as the declared schema
(`libs/database/src/schemas/reservation.schema.ts`) persists it: the
schema declares only `reservationId` (a non-unique index), `guestName`
and `status`.  `checkInDate`/`checkOutDate` appear here as optional keys
a MongoDB document could hold, so that claims about them can be stated;
no operation of the program ever writes them, because the schema does
not declare those paths and Mongoose strict mode strips them from every
update. -/
structure Reservation where
  reservationId : String
  guestName : String
  status : ReservationStatus
  checkInDate : Option Int
  checkOutDate : Option Int
deriving DecidableEq, Repr

/-- The update document the row loop of `TasksService.handleTaskCreated`
passes to `reservationModel.updateOne`: the filter key `reservationId`
plus the `$set` payload `{guestName, checkInDate, checkOutDate,
status}`. -/
structure ReservationWrite where
  reservationId : String
  guestName : String
  checkInDate : Int
  checkOutDate : Int
  status : ReservationStatus
deriving DecidableEq, Repr

/-- The durable store: collections `tasks`, `events`, `reservations`. -/
structure Store where
  tasks : List Task
  events : List Event
  reservations : List Reservation
deriving DecidableEq, Repr

/-- The empty store. -/
def emptyStore : Store := ⟨[], [], []⟩

/-! ## Generic document-store operations

`updateOne` / `findOneAndUpdate` update the first matching document. -/

/-- `updateOne`: apply `f` to the first element satisfying `p`. -/
def updateFirst {α : Type} (p : α → Bool) (f : α → α) : List α → List α
  | [] => []
  | x :: xs => if p x then f x :: xs else x :: updateFirst p f xs

/-! ## Row validation and upsert collection

Translated from the row loop of `TasksService.handleTaskCreated`
(`apps/worker/src/modules/tasks/tasks.service.ts`, lines 103-147).
`parseDate` abstracts the JavaScript `new Date(string)` parser
(`none` models an invalid date, `some t` a timestamp). -/

/-- An XLSX row as seen by the service after `sheet_to_json`: each cell is
absent (`none`) or a string. -/
structure Row where
  reservation_id : Option String
  guest_name : Option String
  check_in_date : Option String
  check_out_date : Option String
  status : Option String
deriving DecidableEq, Repr

/-- JavaScript falsiness of `row.<field>`: absent or the empty string. -/
def falsy : Option String → Bool
  | none => true
  | some s => s = ""

/-- `Object.values(ReservationStatus).includes(...)`: parse the `status`
cell against the enum values. -/
def parseReservationStatus : String → Option ReservationStatus
  | "PENDING" => some .pending
  | "CANCELED" => some .canceled
  | "COMPLETED" => some .completed
  | _ => none

/-- The outcome of one loop iteration: push a row error, or issue a
reservation upsert. -/
inductive RowAction where
  | err (e : RowError)
  | upsert (r : ReservationWrite)
deriving DecidableEq, Repr

/-- The duplicate-row error message built by the service. -/
def dupMsg (rid : String) : String :=
  "Duplicate reservation_id: " ++ rid ++ " found in the file"

/-- One iteration of the row loop, with `seen` the `processedIds` set and
`rowNumber = rowIndex + 2`.  The checks run in source order: the five
required-field checks, the duplicate check, the two date-parse checks, the
date-range check, the status check, then the upsert. -/
def processRow (parseDate : String → Option Int) (seen : List String)
    (rowNumber : Nat) (row : Row) : RowAction :=
  if falsy row.reservation_id then
    .err ⟨rowNumber, "Missing required field: reservation_id"⟩
  else if falsy row.guest_name then
    .err ⟨rowNumber, "Missing required field: guest_name"⟩
  else if falsy row.check_in_date then
    .err ⟨rowNumber, "Missing required field: check_in_date"⟩
  else if falsy row.check_out_date then
    .err ⟨rowNumber, "Missing required field: check_out_date"⟩
  else if falsy row.status then
    .err ⟨rowNumber, "Missing required field: status"⟩
  else if row.reservation_id.getD "" ∈ seen then
    .err ⟨rowNumber, dupMsg (row.reservation_id.getD "")⟩
  else
    match parseDate (row.check_in_date.getD "") with
    | none =>
        .err ⟨rowNumber,
          "Invalid date format for check_in_date. Expected YYYY-MM-DD, got: " ++
            row.check_in_date.getD ""⟩
    | some checkInDate =>
      match parseDate (row.check_out_date.getD "") with
      | none =>
          .err ⟨rowNumber,
            "Invalid date format for check_out_date. Expected YYYY-MM-DD, got: " ++
              row.check_out_date.getD ""⟩
      | some checkOutDate =>
        if checkOutDate ≤ checkInDate then
          .err ⟨rowNumber,
            "Invalid date range: check_out_date (" ++ row.check_out_date.getD "" ++
              ") must be after check_in_date (" ++ row.check_in_date.getD "" ++ ")"⟩
        else
          match parseReservationStatus (row.status.getD "") with
          | none =>
              .err ⟨rowNumber, "Invalid reservation status: " ++ row.status.getD ""⟩
          | some rstatus =>
              .upsert ⟨row.reservation_id.getD "", row.guest_name.getD "",
                checkInDate, checkOutDate, rstatus⟩

/-- `processedIds` after an action: the id is added exactly when the row
passed validation (just before its upsert). -/
def seenAfterAction (seen : List String) : RowAction → List String
  | .err _ => seen
  | .upsert r => r.reservationId :: seen

/-- The whole row loop: the per-row actions, starting at `rowNumber = n`
with `processedIds = seen`. -/
def rowActions (parseDate : String → Option Int) :
    Nat → List String → List Row → List RowAction
  | _, _, [] => []
  | n, seen, row :: rest =>
    let a := processRow parseDate seen n row
    a :: rowActions parseDate (n + 1) (seenAfterAction seen a) rest

/-- The collected `errors` array, in order. -/
def errorsOf (as : List RowAction) : List RowError :=
  as.filterMap fun a => match a with | .err e => some e | .upsert _ => none

/-- The reservation upserts issued, in order. -/
def upsertsOf (as : List RowAction) : List ReservationWrite :=
  as.filterMap fun a => match a with | .err _ => none | .upsert r => some r

/-! ## The per-message algorithm of the task processor

`TasksService.handleTaskCreated`.  The XLSX download and decode are
abstracted by a `FileOutcome`; the MongoDB transaction is modelled
atomically: the committed result applies every write made through the
session, an abort persists none of them. -/

/-- Result of downloading and decoding the artifact: the parsed rows, or a
file-level failure (download error, missing or corrupt worksheet). -/
inductive FileOutcome where
  | rows (rs : List Row)
  | failure (msg : String)
deriving DecidableEq, Repr

/-- Errors and upserts produced inside the transaction: a file-level
failure (including the zero-row case, which the service turns into a
thrown `No data found in XLSX file`) is caught and recorded as a single
`{row: 0}` error with no upserts; otherwise the row loop runs. -/
def bodyResults (parseDate : String → Option Int) :
    FileOutcome → List RowError × List ReservationWrite
  | .failure m => ([⟨0, "File processing error: " ++ m⟩], [])
  | .rows rs =>
    if rs.isEmpty then
      ([⟨0, "File processing error: No data found in XLSX file"⟩], [])
    else
      let as := rowActions parseDate 2 [] rs
      (errorsOf as, upsertsOf as)

/-- `reservationModel.updateOne({reservationId}, {$set: {guestName,
checkInDate, checkOutDate, status}}, {upsert: true})` against the
declared schema: Mongoose strict mode strips the undeclared
`checkInDate`/`checkOutDate` paths from the `$set`, so only `guestName`
and `status` are written to the first document matching
`reservationId`; when none matches, the inserted document is the filter
plus the surviving `$set` fields -- it carries no dates. -/
def applyUpsert : List Reservation → ReservationWrite → List Reservation
  | [], w => [⟨w.reservationId, w.guestName, w.status, none, none⟩]
  | x :: xs, w =>
    if x.reservationId = w.reservationId then
      { x with guestName := w.guestName, status := w.status } :: xs
    else
      x :: applyUpsert xs w

/-- The step-3 claim update applied to the matched task. -/
def claimUpdate (self : String) (now : Int) (t : Task) : Task :=
  { t with status := .inProgress, startedAt := some now,
           workerId := some self, processingAt := some now }

/-- The claim filter `{taskId, status: PENDING}`. -/
def claimPred (tid : String) (t : Task) : Bool :=
  decide (t.taskId = tid ∧ t.status = TaskStatus.pending)

/-- `findOneAndUpdate({taskId, status: PENDING}, {$set: {...}}, {new:
true})`: returns the updated document and the updated collection, or
`none` when no document matched. -/
def claimTask (self : String) (now : Int) (tid : String) (tasks : List Task) :
    Option (Task × List Task) :=
  match tasks.find? (claimPred tid) with
  | none => none
  | some t => some (claimUpdate self now t,
      updateFirst (claimPred tid) (claimUpdate self now) tasks)

/-- The step-6 finalization update applied to the claimed task. -/
def finalizeUpdate (finalStatus : TaskStatus) (now : Int)
    (errors : List RowError) (t : Task) : Task :=
  { t with status := finalStatus, completedAt := some now, errors := errors,
           workerId := none, processingAt := none }

/-- The step-7 event update: `$set {status: PROCESSED, processedAt: now,
error: undefined}`.  Mongoose drops `undefined` values from updates, so
the `error` field is left unchanged. -/
def markEventProcessed (now : Int) (e : Event) : Event :=
  { e with status := .processed, processedAt := some now }

/-- The store produced when the transaction commits after a successful
claim: all reservation upserts, the task finalization and the event
update, atomically. -/
def commitHandle (parseDate : String → Option Int) (now : Int) (s : Store)
    (eid : String) (outcome : FileOutcome)
    (claimed : Task) (tasksAfterClaim : List Task) : Store :=
  let res := bodyResults parseDate outcome
  let finalStatus := if res.1.length > 0 then TaskStatus.failed else TaskStatus.completed
  { tasks := updateFirst (fun t => decide (t.id = claimed.id))
      (finalizeUpdate finalStatus now res.1) tasksAfterClaim
    events := updateFirst (fun e => decide (e.id = eid))
      (markEventProcessed now) s.events
    reservations := res.2.foldl applyUpsert s.reservations }

/-- The fallback task update: mark `FAILED` with the serialized error. -/
def fallbackTaskUpdate (now : Int) (msg : String) (t : Task) : Task :=
  { t with status := .failed, completedAt := some now,
           errors := [⟨0, "Transaction failed: " ++ msg⟩],
           workerId := none, processingAt := none }

/-- The fallback event update: `$set {status: PROCESSED, processedAt: now,
error: {message, stack}}`. -/
def fallbackEventUpdate (now : Int) (msg : String) (e : Event) : Event :=
  { e with status := .processed, processedAt := some now,
           error := some ⟨"Transaction failed: " ++ msg, none, some msg⟩ }

/-- The non-retryable fallback path (outside the transaction): best-effort
mark the Task `FAILED` and the Event `PROCESSED` with the error
serialized, then ack.  The task update filter is `{taskId}` alone, the
event update filter `{_id: eventId}`. -/
def fallbackWrites (now : Int) (eid tid msg : String) (s : Store) : Store :=
  { s with
    tasks := updateFirst (fun t => decide (t.taskId = tid))
      (fallbackTaskUpdate now msg) s.tasks
    events := updateFirst (fun e => decide (e.id = eid))
      (fallbackEventUpdate now msg) s.events }

/-- How one delivery of the message goes: the transaction runs to
completion with the given file outcome, or an injected infrastructure
failure aborts it -- a MongoDB write conflict (error code 112), or any
other mid-transaction exception. -/
inductive Delivery where
  | ok (outcome : FileOutcome)
  | writeConflict
  | crash (msg : String)
deriving DecidableEq, Repr

/-- `ack` returns normally; `nack` is `new Nack(false)` (dead-letter). -/
inductive HandlerResult where
  | ack
  | nack
deriving DecidableEq, Repr

/-- `TasksService.handleTaskCreated`: the full per-message algorithm.
`eventId`/`payload` are the message fields (either may be absent on a
poison message).  On `writeConflict` the transaction aborts and the
message is nacked; on any other `crash` the transaction aborts and the
fallback writes run outside it; otherwise the transaction commits and the
message is acked. -/
def handleTaskCreated (parseDate : String → Option Int) (self : String)
    (now : Int) (eventId : Option String) (payload : Option TaskCreatedPayload)
    (d : Delivery) (s : Store) : Store × HandlerResult :=
  match eventId, payload with
  | some eid, some p =>
    match d with
    | .writeConflict => (s, .nack)
    | .crash m => (fallbackWrites now eid p.taskId m s, .ack)
    | .ok outcome =>
      match claimTask self now p.taskId s.tasks with
      | none => (s, .ack)
      | some (claimed, tasks1) =>
          (commitHandle parseDate now s eid outcome claimed tasks1, .ack)
  | _, _ => (s, .ack)

/-! ## The upload assembler transaction (`CreateTaskHandler.execute`)

Creates, in one store transaction, the `PENDING` Task and its `NEW`
outbox Event whose `event` field is the serialized `TaskCreatedEvent`. -/

/-- The event name of `TaskCreatedEvent`. -/
def taskCreatedEventName : String := "task.created.event"

/-- `CreateTaskHandler.execute`: append the new Task and its outbox
Event atomically. -/
def createTask (taskDbId eventDbId taskId filePath originalFileName : String)
    (now : Int) (s : Store) : Store :=
  { s with
    tasks := s.tasks ++
      [{ id := taskDbId, taskId := taskId, filePath := filePath,
         originalFileName := originalFileName, status := .pending,
         errors := [], startedAt := some now, completedAt := none,
         workerId := none, processingAt := none }]
    events := s.events ++
      [{ id := eventDbId, eventName := taskCreatedEventName,
         event := ⟨taskCreatedEventName, ⟨taskId, filePath, originalFileName⟩⟩,
         status := .new, error := none, publishedAt := none,
         processedAt := none, processingAt := none, workerId := none,
         createdAt := now }] }

/-! ## The outbox dispatcher (`EventsService`) -/

/-- `BATCH_SIZE` from `events.module.ts`. -/
def BATCH_SIZE : Nat := 500

/-- `STALE_EVENT_THRESHOLD_SECONDS` from `events.module.ts`. -/
def STALE_EVENT_THRESHOLD_SECONDS : Int := 60

/-- The claim update of `publishNewEvents` step 1. -/
def claimEventUpdate (self : String) (now : Int) (e : Event) : Event :=
  { e with status := .processing, workerId := some self, processingAt := some now }

/-- `publishNewEvents` step 1: `eventModel.updateMany({status: NEW},
{$set: {status: PROCESSING, workerId: self, processingAt: now}}, {sort:
{createdAt: 1}, limit: BATCH_SIZE})`.  MongoDB's update command with
`multi: true` supports neither `sort` nor `limit`, and Mongoose and the
driver silently drop both options, so the update claims EVERY `NEW`
event in collection order.  Returns the updated collection and the set
of documents the filter matched (the claimed events). -/
def claimNewEvents (self : String) (now : Int) (evs : List Event) :
    List Event × List Event :=
  (evs.map fun e =>
    if e.status = EventStatus.new then claimEventUpdate self now e else e,
   evs.filter fun e => decide (e.status = EventStatus.new))

/-- The `$set`/`$unset` of the step-3 status update: `{status: PUBLISHED,
processedAt: now}`, clearing `processingAt` and `workerId`. -/
def publishedEventUpdate (now : Int) (e : Event) : Event :=
  { e with status := .published, processedAt := some now,
           processingAt := none, workerId := none }

/-- The per-event status update of `publishNewEvents` step 3:
`updateOne({_id, status: PROCESSING, workerId: self}, {$set: {status:
PUBLISHED, processedAt: now}, $unset: {processingAt, workerId}})`. -/
def markEventPublished (self : String) (now : Int) (eid : String)
    (evs : List Event) : List Event :=
  updateFirst
    (fun e => decide (e.id = eid ∧ e.status = EventStatus.processing ∧
      e.workerId = some self))
    (publishedEventUpdate now) evs

/-- Is a `PROCESSING` claim stale: `processingAt < now - 60s`?  A missing
`processingAt` does not match the `$lt` filter. -/
def processingAtBefore (pa : Option Int) (threshold : Int) : Bool :=
  match pa with
  | none => false
  | some t => decide (t < threshold)

/-- One document under the recovery `updateMany`: reset to `NEW` and
clear the lease when the filter `{status: PROCESSING, processingAt: {$lt:
now - 60s}}` matches, else unchanged. -/
def recoverOne (now : Int) (e : Event) : Event :=
  if e.status = EventStatus.processing ∧
      processingAtBefore e.processingAt (now - STALE_EVENT_THRESHOLD_SECONDS) then
    { e with status := .new, workerId := none, processingAt := none }
  else e

/-- `EventsService.recoverStaleEvents`: the recovery `updateMany`. -/
def recoverStaleEvents (now : Int) (evs : List Event) : List Event :=
  evs.map (recoverOne now)

/-! ## The published message

`publishNewEvents` step 3 builds `messagePayload = {eventId:
eventIdString, ...(event as any).payload}` and publishes it to
`Exchange.EVENTS` with routing key `event.eventName` and the `persistent`
flag.  The spread reads the `payload` property of the hydrated document;
to render that access faithfully, the document is lowered to its
JavaScript object (the keys actually present on it, per the schema and
the two writers, `CreateTaskHandler.execute` and
`EventsService.saveEvent`, both of which store the envelope under the key
`event`). -/

/-- A fragment of JSON: enough to express the published message. -/
inductive JVal where
  | str (v : String)
  | int (v : Int)
  | obj (fields : List (String × JVal))

/-- JSON for the stored payload `{taskId, filePath, originalFileName}`. -/
def payloadJson (p : TaskCreatedPayload) : JVal :=
  .obj [("taskId", .str p.taskId), ("filePath", .str p.filePath),
        ("originalFileName", .str p.originalFileName)]

/-- JSON for the embedded envelope `{eventName, payload}`. -/
def envelopeJson (env : Envelope) : JVal :=
  .obj [("eventName", .str env.eventName), ("payload", payloadJson env.payload)]

/-- The string stored for an event status. -/
def eventStatusString : EventStatus → String
  | .new => "NEW"
  | .processing => "PROCESSING"
  | .published => "PUBLISHED"
  | .processed => "PROCESSED"
  | .failed => "FAILED"

/-- Optionally a key-value pair, used for fields that may be absent. -/
def optField (k : String) (v : Option JVal) : List (String × JVal) :=
  match v with
  | none => []
  | some j => [(k, j)]

/-- The keys present on a hydrated Event document: `_id` plus the schema
paths holding a value.  There is no top-level `payload` key: the envelope
lives under `event`. -/
def eventDocFields (e : Event) : List (String × JVal) :=
  [("_id", .str e.id), ("eventName", .str e.eventName),
   ("event", envelopeJson e.event),
   ("status", .str (eventStatusString e.status))] ++
  optField "processingAt" (e.processingAt.map .int) ++
  optField "processedAt" (e.processedAt.map .int) ++
  optField "publishedAt" (e.publishedAt.map .int) ++
  optField "workerId" (e.workerId.map .str) ++
  [("createdAt", .int e.createdAt)]

/-- JavaScript property read on an object: `undefined` is `none`. -/
def jsGet (fields : List (String × JVal)) (k : String) : Option JVal :=
  (fields.find? fun kv => decide (kv.1 = k)).map fun kv => kv.2

/-- Spreading a JavaScript value into an object literal: spreading an
object contributes its fields; spreading `undefined` (or a primitive with
no enumerable own properties) contributes nothing. -/
def jsSpread : Option JVal → List (String × JVal)
  | some (.obj fs) => fs
  | _ => []

/-- The `messagePayload` the dispatcher builds for an event:
`{eventId: <_id as string>, ...(event as any).payload}`. -/
def messagePayload (e : Event) : JVal :=
  .obj (("eventId", .str e.id) :: jsSpread (jsGet (eventDocFields e) "payload"))

/-- The exchanges of the bus topology (the `Exchange` enum). -/
inductive Exchange where
  | EVENTS
  | WORKER
  | DLQ
deriving DecidableEq, Repr

/-- A message handed to `amqpConnection.publish`. -/
structure PublishedMessage where
  exchange : Exchange
  routingKey : String
  body : JVal
  persistent : Bool

/-- The publish call of `publishNewEvents` step 3 for one claimed
event. -/
def publishForEvent (e : Event) : PublishedMessage :=
  { exchange := .EVENTS, routingKey := e.eventName,
    body := messagePayload e, persistent := true }

/-! ## The upload assembler session cache (`TaskService.handleFileChunk`)

Only the Redis session-cache effects are modelled; the S3 calls are
abstracted by their returned values (`s3UploadId`, `etag`) and the final
store transaction by `createTask` above.  Redis semantics: `SET` on an
existing key discards any time-to-live; `EXPIRE` arms one. -/

/-- `UploadSession` (`upload-session.interface.ts`). -/
structure UploadedPart where
  PartNumber : Nat
  ETag : String
deriving DecidableEq, Repr

structure UploadSession where
  s3UploadId : String
  bucketFilePath : String
  totalChunks : Nat
  originalFileName : String
  mimeType : String
  uploadedParts : List UploadedPart
deriving DecidableEq, Repr

/-- The session cache: key, stored session, remaining time-to-live in
seconds (`none` = no expiry). -/
def Cache := List (String × UploadSession × Option Nat)

/-- A plain Redis `SET key value`: store the value with NO time-to-live
(an existing TTL is discarded). -/
def cacheSet (k : String) (v : UploadSession) : Cache → Cache
  | [] => [(k, v, none)]
  | kv :: rest =>
    if kv.1 = k then (k, v, none) :: rest else kv :: cacheSet k v rest

/-- The `MULTI · SET key value · EXPIRE key ttl · EXEC` used on chunk 0:
store the value with the given time-to-live. -/
def cacheSetEx (k : String) (v : UploadSession) (ttl : Nat) : Cache → Cache
  | [] => [(k, v, some ttl)]
  | kv :: rest =>
    if kv.1 = k then (k, v, some ttl) :: rest else kv :: cacheSetEx k v ttl rest

/-- Redis `GET`. -/
def cacheGet (k : String) : Cache → Option UploadSession
  | [] => none
  | kv :: rest => if kv.1 = k then some kv.2.1 else cacheGet k rest

/-- The time-to-live stored with a key: `none` when the key is absent,
`some none` when the key exists without expiry. -/
def cacheTtl (k : String) : Cache → Option (Option Nat)
  | [] => none
  | kv :: rest => if kv.1 = k then some kv.2.2 else cacheTtl k rest

/-- `UPLOAD_SESSION_TTL = 24 * 60 * 60` seconds. -/
def UPLOAD_SESSION_TTL : Nat := 24 * 60 * 60

/-- Errors surfaced by `handleFileChunk`. -/
inductive ChunkError where
  | badRequest (msg : String)
deriving DecidableEq, Repr

/-- The response: the receipt marker, or the new task id on the final
chunk. -/
inductive ChunkResult where
  | chunkReceived
  | created (taskId : String)
deriving DecidableEq, Repr

/-- `TaskService.handleFileChunk`, session-cache slice.  `freshUuid`,
`s3UploadId`, `etag` and `taskId` stand for the values produced by the
collaborators.  Chunk 0 initializes the session and persists it with
`SET`+`EXPIRE`; every chunk then re-persists the session after the part
upload with a plain `SET`. -/
def handleFileChunk (chunkNumber totalChunks : Nat)
    (uploadId originalFileName mime freshUuid s3UploadId etag taskId : String)
    (c : Cache) : Except ChunkError (Cache × ChunkResult) :=
  if chunkNumber ≥ totalChunks then
    .error (.badRequest "Chunk number exceeds total chunks")
  else
    let sessionKey := "upload:" ++ uploadId
    let step1 : Except ChunkError (Cache × UploadSession) :=
      if chunkNumber = 0 then
        let bucketFilePath := "uploads/" ++ freshUuid ++ "/" ++ originalFileName
        let session : UploadSession :=
          { s3UploadId := s3UploadId, bucketFilePath := bucketFilePath,
            totalChunks := totalChunks, originalFileName := originalFileName,
            mimeType := mime, uploadedParts := [] }
        .ok (cacheSetEx sessionKey session UPLOAD_SESSION_TTL c, session)
      else
        match cacheGet sessionKey c with
        | none => .error (.badRequest "Upload session not found or expired")
        | some session => .ok (c, session)
    match step1 with
    | .error e => .error e
    | .ok (c1, session) =>
      let partNumber := chunkNumber + 1
      let session2 :=
        { session with uploadedParts := session.uploadedParts ++ [⟨partNumber, etag⟩] }
      let c2 := cacheSet sessionKey session2 c1
      if chunkNumber = totalChunks - 1 then .ok (c2, .created taskId)
      else .ok (c2, .chunkReceived)

/-! ## Reachable store states

The store is mutated only by the upload assembler transaction, the task
processor and the two dispatcher ticks. -/

/-- One core operation applied to the store. -/
inductive Step (parseDate : String → Option Int) : Store → Store → Prop where
  | create (taskDbId eventDbId taskId filePath name : String) (now : Int)
      (s : Store) :
      Step parseDate s (createTask taskDbId eventDbId taskId filePath name now s)
  | handle (self : String) (now : Int) (eventId : Option String)
      (payload : Option TaskCreatedPayload) (d : Delivery) (s : Store) :
      Step parseDate s (handleTaskCreated parseDate self now eventId payload d s).1
  | claimTick (self : String) (now : Int) (s : Store) :
      Step parseDate s { s with events := (claimNewEvents self now s.events).1 }
  | publishTick (self : String) (now : Int) (eid : String) (s : Store) :
      Step parseDate s { s with events := markEventPublished self now eid s.events }
  | recoverTick (now : Int) (s : Store) :
      Step parseDate s { s with events := recoverStaleEvents now s.events }

/-- Stores reachable from the empty store through core operations. -/
inductive Reachable (parseDate : String → Option Int) : Store → Prop where
  | init : Reachable parseDate emptyStore
  | step {s s2 : Store} : Reachable parseDate s → Step parseDate s s2 →
      Reachable parseDate s2

/-- A terminal task status. -/
def isTerminal (st : TaskStatus) : Prop :=
  st = TaskStatus.completed ∨ st = TaskStatus.failed

instance (st : TaskStatus) : Decidable (isTerminal st) := by
  unfold isTerminal; infer_instance

/-- The status of the task a `findOne {taskId}` would return. -/
def taskStatusOf (s : Store) (tid : String) : Option TaskStatus :=
  (s.tasks.find? fun t => decide (t.taskId = tid)).map Task.status

/-- The field discipline of terminal tasks: `completedAt` set, lease
cleared. -/
def taskFieldsOK (t : Task) : Prop :=
  isTerminal t.status →
    t.completedAt.isSome = true ∧ t.workerId = none ∧ t.processingAt = none

/-- A row passing the five required-field presence checks. -/
def requiredPresent (row : Row) : Prop :=
  falsy row.reservation_id = false ∧ falsy row.guest_name = false ∧
    falsy row.check_in_date = false ∧ falsy row.check_out_date = false ∧
    falsy row.status = false

instance (row : Row) : Decidable (requiredPresent row) := by
  unfold requiredPresent; infer_instance

/-- `processedIds` after the row loop has consumed the given rows. -/
def seenAfter (parseDate : String → Option Int) :
    Nat → List String → List Row → List String
  | _, seen, [] => seen
  | n, seen, row :: rest =>
    seenAfter parseDate (n + 1)
      (seenAfterAction seen (processRow parseDate seen n row)) rest

/-- Property read on the published message body. -/
def msgGet (e : Event) (k : String) : Option JVal :=
  match messagePayload e with
  | .obj fs => jsGet fs k
  | _ => none

/-! ## Concrete fixtures used by witnesses and counterexamples -/

/-- A concrete date parser consistent with JavaScript `new Date`:
`YYYY-MM-DD` strings it knows map to their epoch timestamps, everything
else is an invalid date. -/
def pdC : String → Option Int := fun v =>
  if v = "2024-01-01" then some 0
  else if v = "2024-01-02" then some 86400
  else none

def payloadC : TaskCreatedPayload := ⟨"t-1", "uploads/u1/r.xlsx", "r.xlsx"⟩

/-- The store after the assembler created one Task/Event pair. -/
def storeA : Store :=
  createTask "T1" "E1" "t-1" "uploads/u1/r.xlsx" "r.xlsx" 10 emptyStore

/-- `storeA` after a delivery whose download failed: the task is
finalized `FAILED`. -/
def storeB : Store :=
  (handleTaskCreated pdC "w-1" 20 (some "E1") (some payloadC)
    (.ok (.failure "download failed")) storeA).1

def goodRow1 : Row :=
  ⟨some "R-1", some "Alice", some "2024-01-01", some "2024-01-02", some "PENDING"⟩

def goodRow2 : Row :=
  ⟨some "R-2", some "Bob", some "2024-01-01", some "2024-01-02", some "COMPLETED"⟩

/-- `storeA` after a successful delivery of two valid rows. -/
def storeD : Store :=
  (handleTaskCreated pdC "w-1" 20 (some "E1") (some payloadC)
    (.ok (.rows [goodRow1, goodRow2])) storeA).1

/-- A row with a missing `reservation_id`. -/
def badRow : Row :=
  ⟨none, some "Alice", some "2024-01-01", some "2024-01-02", some "PENDING"⟩

/-- `storeA` after a delivery with one row error. -/
def storeE : Store :=
  (handleTaskCreated pdC "w-1" 20 (some "E1") (some payloadC)
    (.ok (.rows [badRow])) storeA).1

/-- The pair returned by the step-3 claim against `storeA`. -/
def claimedPrC : Task × List Task :=
  match claimTask "w-1" 20 payloadC.taskId storeA.tasks with
  | some pr => pr
  | none => (⟨"", "", "", "", .pending, [], none, none, none, none⟩, [])

/-- A later occurrence of `R-1`, fields present. -/
def dupRow : Row :=
  ⟨some "R-1", some "Carol", some "2024-01-01", some "2024-01-02", some "PENDING"⟩

/-- First occurrence of `A-1`: fails validation (missing guest name). -/
def invalidFirstRow : Row :=
  ⟨some "A-1", none, some "2024-01-01", some "2024-01-02", some "PENDING"⟩

/-- Second occurrence of `A-1`: fully valid. -/
def validSecondRow : Row :=
  ⟨some "A-1", some "Dave", some "2024-01-01", some "2024-01-02", some "PENDING"⟩

/-- A claimed outbox event exactly as created by the upload assembler
(envelope under the `event` field) and claimed by a dispatcher. -/
def exampleOutboxEvent : Event :=
  { id := "665f0001", eventName := taskCreatedEventName,
    event := ⟨taskCreatedEventName, payloadC⟩, status := .processing,
    error := none, publishedAt := none, processedAt := none,
    processingAt := some 15, workerId := some "w-1", createdAt := 10 }

/-- A `PROCESSING` event whose lease expired 100 seconds ago. -/
def staleEv : Event :=
  { id := "E9", eventName := taskCreatedEventName,
    event := ⟨taskCreatedEventName, payloadC⟩, status := .processing,
    error := none, publishedAt := none, processedAt := none,
    processingAt := some 0, workerId := some "ghost-1", createdAt := 0 }

/-- A `PROCESSING` event claimed 30 seconds ago (not stale at `now = 100`). -/
def freshEv : Event :=
  { staleEv with id := "E10", processingAt := some 70, workerId := some "w-1" }

def evNew1 : Event :=
  { staleEv with
    id := "N1", status := .new, processingAt := none, workerId := none,
    createdAt := 5 }

def evNew2 : Event :=
  { evNew1 with id := "N2", createdAt := 3 }

def evPub : Event :=
  { evNew1 with id := "P1", status := .published, createdAt := 1 }

/-- 501 `NEW` events -- one more than `BATCH_SIZE`. -/
def manyNewEvents : List Event :=
  (List.range 501).map fun i =>
    { evNew1 with id := toString i, createdAt := Int.ofNat i }

/-- The XLSX content type. -/
def xlsxMime : String :=
  "application/vnd.openxmlformats-officedocument.spreadsheetml.sheet"

/-- The cache after the assembler handled chunk 0 of 2. -/
def cacheAfterChunk0 : Cache :=
  match handleFileChunk 0 2 "u-1" "reservations.xlsx" xlsxMime "uuid-1"
      "s3-up-1" "etag-1" "t-1" [] with
  | .ok out => out.1
  | .error _ => []

/-- The cache after the assembler then handled the final chunk 1 of 2. -/
def cacheAfterChunk1 : Cache :=
  match handleFileChunk 1 2 "u-1" "reservations.xlsx" xlsxMime "uuid-1"
      "s3-up-1" "etag-2" "t-1" cacheAfterChunk0 with
  | .ok out => out.1
  | .error _ => []

/-! ## Helper lemmas about `updateFirst` and `find?` -/

section UpdateFirst

variable {α : Type} {p : α → Bool} {f : α → α}

theorem updateFirst_mem_or {l : List α} {x : α} (hx : x ∈ updateFirst p f l) :
    x ∈ l ∨ ∃ y ∈ l, p y = true ∧ x = f y := by
  induction l with
  | nil => cases hx
  | cons a l ih =>
    by_cases ha : p a
    · rw [updateFirst, if_pos ha] at hx
      rcases List.mem_cons.mp hx with h | h
      · exact Or.inr ⟨a, List.mem_cons_self a l, ha, h⟩
      · exact Or.inl (List.mem_cons_of_mem a h)
    · rw [updateFirst, if_neg ha] at hx
      rcases List.mem_cons.mp hx with h | h
      · exact Or.inl (h ▸ List.mem_cons_self a l)
      · rcases ih h with h2 | ⟨y, hy, hpy, hxy⟩
        · exact Or.inl (List.mem_cons_of_mem a h2)
        · exact Or.inr ⟨y, List.mem_cons_of_mem a hy, hpy, hxy⟩

theorem updateFirst_of_find? {l : List α} {x : α} (h : l.find? p = some x) :
    f x ∈ updateFirst p f l := by
  induction l with
  | nil => cases h
  | cons a l ih =>
    by_cases ha : p a
    · rw [List.find?_cons_of_pos _ ha] at h
      rw [updateFirst, if_pos ha]
      cases h
      exact List.mem_cons_self _ _
    · rw [List.find?_cons_of_neg _ ha] at h
      rw [updateFirst, if_neg ha]
      exact List.mem_cons_of_mem a (ih h)

theorem exists_mem_updateFirst {l : List α} {x : α} (hx : x ∈ l)
    (hp : p x = true) : ∃ y ∈ l, p y = true ∧ f y ∈ updateFirst p f l := by
  have hfind : ∃ y, l.find? p = some y := by
    rcases List.find?_isSome.mpr ⟨x, hx, hp⟩ with h
    exact Option.isSome_iff_exists.mp h
  rcases hfind with ⟨y, hy⟩
  exact ⟨y, List.mem_of_find?_eq_some hy, List.find?_some hy,
    updateFirst_of_find? hy⟩

theorem updateFirst_map_key {β : Type} (key : α → β)
    (hkey : ∀ y, key (f y) = key y) :
    ∀ l : List α, (updateFirst p f l).map key = l.map key := by
  intro l
  induction l with
  | nil => rfl
  | cons a l ih =>
    by_cases ha : p a
    · rw [updateFirst, if_pos ha]
      simp [hkey]
    · rw [updateFirst, if_neg ha]
      simp [ih]

theorem find?_append_of_some {l1 l2 : List α} {x : α}
    (h : l1.find? p = some x) : (l1 ++ l2).find? p = some x := by
  induction l1 with
  | nil => cases h
  | cons a l ih =>
    by_cases ha : p a
    · rw [List.find?_cons_of_pos _ ha] at h
      rw [List.cons_append, List.find?_cons_of_pos _ ha]
      exact h
    · rw [List.find?_cons_of_neg _ ha] at h
      rw [List.cons_append, List.find?_cons_of_neg _ ha]
      exact ih h

/-- The key lemma for terminal-status preservation: if the scan key is
preserved by `f` and `f` keeps matched terminal documents terminal, a
first-match update cannot move the document found by `find? q` out of
the terminal set. -/
theorem find?_status_updateFirst (q : α → Bool) (status : α → TaskStatus)
    (hq : ∀ y, q (f y) = q y)
    (hterm : ∀ y, p y = true → isTerminal (status y) → isTerminal (status (f y))) :
    ∀ (l : List α) (st : TaskStatus),
      ((l.find? q).map status) = some st → isTerminal st →
      ∃ st2, (((updateFirst p f l).find? q).map status) = some st2 ∧ isTerminal st2 := by
  intro l
  induction l with
  | nil => intro st h; cases h
  | cons a l ih =>
    intro st h hst
    by_cases hqa : q a
    · rw [List.find?_cons_of_pos _ hqa] at h
      simp only [Option.map_some'] at h
      cases h
      by_cases hpa : p a
      · rw [updateFirst, if_pos hpa]
        rw [List.find?_cons_of_pos _ ((hq a).trans hqa)]
        exact ⟨status (f a), rfl, hterm a hpa hst⟩
      · rw [updateFirst, if_neg hpa]
        rw [List.find?_cons_of_pos _ hqa]
        exact ⟨status a, rfl, hst⟩
    · rw [List.find?_cons_of_neg _ hqa] at h
      by_cases hpa : p a
      · rw [updateFirst, if_pos hpa]
        rw [List.find?_cons_of_neg _ (by rw [hq a]; exact hqa)]
        exact ⟨st, h, hst⟩
      · rw [updateFirst, if_neg hpa]
        rw [List.find?_cons_of_neg _ hqa]
        exact ih st h hst

end UpdateFirst

/-! ## Task-lifecycle lemmas -/

theorem taskFieldsOK_claimUpdate (self : String) (now : Int) (t : Task) :
    taskFieldsOK (claimUpdate self now t) := by
  simp [taskFieldsOK, claimUpdate, isTerminal]

theorem taskFieldsOK_finalizeUpdate (st : TaskStatus) (now : Int)
    (errs : List RowError) (t : Task) :
    taskFieldsOK (finalizeUpdate st now errs t) := by
  simp [taskFieldsOK, finalizeUpdate]

theorem taskFieldsOK_fallbackTaskUpdate (now : Int) (msg : String) (t : Task) :
    taskFieldsOK (fallbackTaskUpdate now msg t) := by
  simp [taskFieldsOK, fallbackTaskUpdate]

theorem claimTask_eq_some {self : String} {now : Int} {tid : String}
    {l : List Task} {c : Task} {l2 : List Task}
    (h : claimTask self now tid l = some (c, l2)) :
    (∃ t0, l.find? (claimPred tid) = some t0 ∧ c = claimUpdate self now t0) ∧
      l2 = updateFirst (claimPred tid) (claimUpdate self now) l := by
  unfold claimTask at h
  cases hf : l.find? (claimPred tid) with
  | none => rw [hf] at h; cases h
  | some t0 =>
    rw [hf] at h
    injection h with h2
    injection h2 with hc hl
    exact ⟨⟨t0, rfl, hc.symm⟩, hl.symm⟩

theorem handle_mem_tasks (parseDate : String → Option Int) (self : String)
    (now : Int) (eid : Option String) (pl : Option TaskCreatedPayload)
    (d : Delivery) (s : Store) {x : Task}
    (hx : x ∈ (handleTaskCreated parseDate self now eid pl d s).1.tasks) :
    x ∈ s.tasks ∨ taskFieldsOK x := by
  cases eid with
  | none => simp only [handleTaskCreated] at hx; exact Or.inl hx
  | some e =>
    cases pl with
    | none => simp only [handleTaskCreated] at hx; exact Or.inl hx
    | some p =>
      cases d with
      | writeConflict => simp only [handleTaskCreated] at hx; exact Or.inl hx
      | crash m =>
        simp only [handleTaskCreated, fallbackWrites] at hx
        rcases updateFirst_mem_or hx with h | ⟨y, _, _, hxy⟩
        · exact Or.inl h
        · exact Or.inr (hxy ▸ taskFieldsOK_fallbackTaskUpdate now m y)
      | ok outcome =>
        simp only [handleTaskCreated] at hx
        cases hc : claimTask self now p.taskId s.tasks with
        | none => rw [hc] at hx; exact Or.inl hx
        | some pr =>
          rw [hc] at hx
          obtain ⟨⟨t0, _, _⟩, hl2⟩ := claimTask_eq_some hc
          simp only [commitHandle] at hx
          rcases updateFirst_mem_or hx with h1 | ⟨y, _, _, hxy⟩
          · rw [hl2] at h1
            rcases updateFirst_mem_or h1 with h2 | ⟨z, _, _, hxz⟩
            · exact Or.inl h2
            · exact Or.inr (hxz ▸ taskFieldsOK_claimUpdate self now z)
          · exact Or.inr (hxy ▸ taskFieldsOK_finalizeUpdate _ now _ y)

theorem reach_taskFieldsOK {parseDate : String → Option Int} {s : Store}
    (h : Reachable parseDate s) : ∀ t ∈ s.tasks, taskFieldsOK t := by
  induction h with
  | init => intro t ht; cases ht
  | step hr hstep ih =>
    cases hstep with
    | create taskDbId eventDbId taskId filePath name now s0 =>
      intro t ht
      simp only [createTask] at ht
      rcases List.mem_append.mp ht with h1 | h1
      · exact ih t h1
      · rcases List.mem_singleton.mp h1 with rfl
        simp [taskFieldsOK, isTerminal]
    | handle self now eid pl d =>
      intro t ht
      rcases handle_mem_tasks _ _ _ _ _ _ _ ht with h1 | h1
      · exact ih t h1
      · exact h1
    | claimTick self now s0 => intro t ht; exact ih t ht
    | publishTick self now eidv s0 => intro t ht; exact ih t ht
    | recoverTick now s0 => intro t ht; exact ih t ht

theorem claimPred_status {tid : String} {y : Task}
    (h : claimPred tid y = true) : y.status = TaskStatus.pending := by
  simp only [claimPred, decide_eq_true_eq] at h
  exact h.2

theorem isTerminal_final (c : Prop) [Decidable c] :
    isTerminal (if c then TaskStatus.failed else TaskStatus.completed) := by
  split <;> simp [isTerminal]

theorem handle_statusOf (parseDate : String → Option Int) (self : String)
    (now : Int) (eid : Option String) (pl : Option TaskCreatedPayload)
    (d : Delivery) (s : Store) (tid : String) (st : TaskStatus)
    (h : taskStatusOf s tid = some st) (hst : isTerminal st) :
    ∃ st2, taskStatusOf (handleTaskCreated parseDate self now eid pl d s).1 tid =
      some st2 ∧ isTerminal st2 := by
  cases eid with
  | none => exact ⟨st, h, hst⟩
  | some e =>
    cases pl with
    | none => exact ⟨st, h, hst⟩
    | some pv =>
      cases d with
      | writeConflict => exact ⟨st, h, hst⟩
      | crash m =>
        simp only [handleTaskCreated, fallbackWrites, taskStatusOf] at h ⊢
        exact find?_status_updateFirst (p := fun t => decide (t.taskId = pv.taskId))
          (f := fallbackTaskUpdate now m)
          (fun t => decide (t.taskId = tid)) Task.status
          (fun y => by simp [fallbackTaskUpdate])
          (fun y _ _ => by simp [fallbackTaskUpdate, isTerminal])
          s.tasks st h hst
      | ok outcome =>
        simp only [handleTaskCreated]
        cases hc : claimTask self now pv.taskId s.tasks with
        | none => exact ⟨st, h, hst⟩
        | some pr =>
          obtain ⟨⟨t0, _, _⟩, hl2⟩ := claimTask_eq_some hc
          simp only [taskStatusOf] at h
          simp only [commitHandle, taskStatusOf, hl2]
          have step1 := find?_status_updateFirst
            (p := claimPred pv.taskId) (f := claimUpdate self now)
            (fun t => decide (t.taskId = tid)) Task.status
            (fun y => by simp [claimUpdate])
            (fun y hy hterm => by
              rw [claimPred_status hy] at hterm
              simp [isTerminal] at hterm)
            s.tasks st h hst
          rcases step1 with ⟨st1, h1, hst1⟩
          exact find?_status_updateFirst
            (p := fun t => decide (t.id = pr.1.id))
            (f := finalizeUpdate
              (if (bodyResults parseDate outcome).1.length > 0 then
                TaskStatus.failed else TaskStatus.completed) now
              (bodyResults parseDate outcome).1)
            (fun t => decide (t.taskId = tid)) Task.status
            (fun y => by simp [finalizeUpdate])
            (fun y _ _ => by
              simp only [finalizeUpdate]
              exact isTerminal_final ((bodyResults parseDate outcome).1.length > 0))
            _ st1 h1 hst1

theorem step_preserves_terminal {parseDate : String → Option Int}
    {s s2 : Store} (hstep : Step parseDate s s2) (tid : String)
    (st : TaskStatus) (h : taskStatusOf s tid = some st) (hst : isTerminal st) :
    ∃ st2, taskStatusOf s2 tid = some st2 ∧ isTerminal st2 := by
  cases hstep with
  | create taskDbId eventDbId taskId filePath name now s =>
    refine ⟨st, ?_, hst⟩
    simp only [taskStatusOf, createTask] at h ⊢
    cases hf : s.tasks.find? (fun t => decide (t.taskId = tid)) with
    | none => rw [hf] at h; cases h
    | some t0 => rw [hf] at h; rw [find?_append_of_some hf]; exact h
  | handle self now eidv pl d s =>
    exact handle_statusOf parseDate self now eidv pl d s tid st h hst
  | claimTick self now s => exact ⟨st, h, hst⟩
  | publishTick self now eidv s => exact ⟨st, h, hst⟩
  | recoverTick now s => exact ⟨st, h, hst⟩

/-! ## Reservation-collection lemmas -/

theorem processRow_upsert_facts {parseDate : String → Option Int}
    {seen : List String} {n : Nat} {row : Row} {r : ReservationWrite}
    (h : processRow parseDate seen n row = .upsert r) :
    r.checkInDate < r.checkOutDate ∧ r.reservationId ∉ seen := by
  unfold processRow at h
  repeat' split at h
  all_goals cases h
  constructor
  · dsimp only
    omega
  · dsimp only
    assumption

theorem upserts_facts (parseDate : String → Option Int) :
    ∀ (rows : List Row) (n : Nat) (seen : List String),
      (∀ u ∈ upsertsOf (rowActions parseDate n seen rows),
        u.reservationId ∉ seen ∧ u.checkInDate < u.checkOutDate) ∧
      ((upsertsOf (rowActions parseDate n seen rows)).map
        ReservationWrite.reservationId).Nodup := by
  intro rows
  induction rows with
  | nil => intro n seen; simp [rowActions, upsertsOf]
  | cons row rest ih =>
    intro n seen
    cases ha : processRow parseDate seen n row with
    | err e =>
      have hrest := ih (n + 1) seen
      constructor
      · intro u hu
        simp only [rowActions, ha, upsertsOf, seenAfterAction,
          List.filterMap_cons] at hu
        exact hrest.1 u hu
      · simp only [rowActions, ha, upsertsOf, seenAfterAction,
          List.filterMap_cons]
        exact hrest.2
    | upsert r =>
      have hfacts := processRow_upsert_facts ha
      have hrest := ih (n + 1) (r.reservationId :: seen)
      constructor
      · intro u hu
        simp only [rowActions, ha, upsertsOf, seenAfterAction,
          List.filterMap_cons] at hu
        rcases List.mem_cons.mp hu with rfl | hu2
        · exact ⟨hfacts.2, hfacts.1⟩
        · have h2 := hrest.1 u hu2
          exact ⟨fun hmem => h2.1 (List.mem_cons_of_mem _ hmem), h2.2⟩
      · simp only [rowActions, ha, upsertsOf, seenAfterAction,
          List.filterMap_cons, List.map_cons, List.nodup_cons]
        refine ⟨fun hmem => ?_, hrest.2⟩
        rcases List.mem_map.mp hmem with ⟨u, hu, hid⟩
        exact (hrest.1 u hu).1 (hid ▸ List.mem_cons_self _ _)

/-! ## Row-loop decomposition lemmas -/

theorem mem_upsertsOf {as : List RowAction} {u : ReservationWrite} :
    u ∈ upsertsOf as ↔ RowAction.upsert u ∈ as := by
  unfold upsertsOf
  rw [List.mem_filterMap]
  constructor
  · rintro ⟨a, ha, hfa⟩
    cases a with
    | err e => cases hfa
    | upsert r =>
      have hr := Option.some.inj hfa
      rw [← hr]
      exact ha
  · intro ha
    exact ⟨RowAction.upsert u, ha, rfl⟩

theorem seen_subset_seenAfterAction (seen : List String) (a : RowAction) :
    seen ⊆ seenAfterAction seen a := by
  cases a with
  | err e => exact fun x hx => hx
  | upsert r => exact fun x hx => List.mem_cons_of_mem _ hx

theorem seen_subset_seenAfter (parseDate : String → Option Int) :
    ∀ (rows : List Row) (n : Nat) (seen : List String),
      seen ⊆ seenAfter parseDate n seen rows := by
  intro rows
  induction rows with
  | nil => intro n seen x hx; exact hx
  | cons row rest ih =>
    intro n seen x hx
    exact ih (n + 1) _ (seen_subset_seenAfterAction seen _ hx)

theorem upsert_mem_seenAfter (parseDate : String → Option Int) :
    ∀ (rows : List Row) (n : Nat) (seen : List String) (r : ReservationWrite),
      RowAction.upsert r ∈ rowActions parseDate n seen rows →
      r.reservationId ∈ seenAfter parseDate n seen rows := by
  intro rows
  induction rows with
  | nil => intro n seen r h; simp [rowActions] at h
  | cons row rest ih =>
    intro n seen r h
    simp only [rowActions] at h
    rcases List.mem_cons.mp h with heq | hmem
    · simp only [seenAfter]
      have hact : seenAfterAction seen (processRow parseDate seen n row) =
          r.reservationId :: seen := by rw [← heq]; rfl
      rw [hact]
      exact seen_subset_seenAfter parseDate rest (n + 1) _
        (List.mem_cons_self _ _)
    · simp only [seenAfter]
      exact ih (n + 1) _ r hmem

theorem rowActions_append (parseDate : String → Option Int) :
    ∀ (xs ys : List Row) (n : Nat) (seen : List String),
      rowActions parseDate n seen (xs ++ ys) =
        rowActions parseDate n seen xs ++
          rowActions parseDate (n + xs.length) (seenAfter parseDate n seen xs) ys := by
  intro xs
  induction xs with
  | nil => intro ys n seen; simp [rowActions, seenAfter]
  | cons x rest ih =>
    intro ys n seen
    simp only [List.cons_append, rowActions, seenAfter, List.length_cons,
      List.cons_append, List.cons.injEq, true_and]
    rw [List.append_eq, ih]
    have hn : n + (rest.length + 1) = n + 1 + rest.length := by omega
    rw [hn]

theorem processRow_dup (parseDate : String → Option Int) (seen : List String)
    (n : Nat) (row : Row) (hpres : requiredPresent row)
    (hseen : row.reservation_id.getD "" ∈ seen) :
    processRow parseDate seen n row =
      .err ⟨n, dupMsg (row.reservation_id.getD "")⟩ := by
  obtain ⟨h1, h2, h3, h4, h5⟩ := hpres
  simp [processRow, h1, h2, h3, h4, h5, hseen]

/-! ## The claims -/

/-- **C4.** In every reachable store state, every Task whose status is
COMPLETED or FAILED has `completedAt` set and `workerId` and
`processingAt` null; and no core operation (upload-assembler create, the
processor claim/finalization/fallback, or a dispatcher tick) ever moves a
Task out of the terminal set: terminal states never revert. -/
theorem c4_terminal_task_invariant :
    (∀ (parseDate : String → Option Int) (s : Store), Reachable parseDate s →
      ∀ t ∈ s.tasks, isTerminal t.status →
        t.completedAt.isSome = true ∧ t.workerId = none ∧ t.processingAt = none) ∧
    (∀ (parseDate : String → Option Int) (s s2 : Store), Step parseDate s s2 →
      ∀ (tid : String) (st : TaskStatus), taskStatusOf s tid = some st →
        isTerminal st → ∃ st2, taskStatusOf s2 tid = some st2 ∧ isTerminal st2) :=
  ⟨fun _ _ h t ht hterm => reach_taskFieldsOK h t ht hterm,
   fun _ _ _ hstep tid st h hst => step_preserves_terminal hstep tid st h hst⟩

/-- Witness for C4: a concrete reachable store whose only task was
finalized `FAILED`; its fields obey the invariant and a further recovery
tick keeps it terminal. -/
theorem c4_terminal_task_invariant_witness :
    Reachable pdC storeB ∧
    (∃ t ∈ storeB.tasks, isTerminal t.status) ∧
    (∀ t ∈ storeB.tasks, isTerminal t.status →
      t.completedAt.isSome = true ∧ t.workerId = none ∧ t.processingAt = none) ∧
    (∃ st2, taskStatusOf
        { storeB with events := recoverStaleEvents 100 storeB.events } "t-1" =
          some st2 ∧ isTerminal st2) := by
  have hreach : Reachable pdC storeB :=
    Reachable.step
      (Reachable.step Reachable.init
        (Step.create "T1" "E1" "t-1" "uploads/u1/r.xlsx" "r.xlsx" 10 emptyStore))
      (Step.handle "w-1" 20 (some "E1") (some payloadC)
        (.ok (.failure "download failed")) storeA)
  refine ⟨hreach, by decide, c4_terminal_task_invariant.1 pdC storeB hreach, ?_⟩
  exact c4_terminal_task_invariant.2 pdC storeB _ (Step.recoverTick 100 storeB)
    "t-1" TaskStatus.failed (by decide) (by decide)

/-- **C9 (code bug).** Committing two fully valid rows leaves two
reservations whose `reservationId`s are unique (the upsert is keyed on
them), but which carry NO `checkInDate`/`checkOutDate` at all: the
Reservation schema declares neither field (nor a unique index), so
Mongoose strict mode strips the dates the service validated and put in
the `$set` -- "every committed Reservation has checkOutDate >
checkInDate" fails on every committed reservation. -/
theorem c9_committed_reservations_lack_dates :
    storeD.reservations.map Reservation.reservationId = ["R-1", "R-2"] ∧
    (storeD.reservations.map Reservation.reservationId).Nodup ∧
    storeD.reservations.map Reservation.checkInDate = [none, none] ∧
    storeD.reservations.map Reservation.checkOutDate = [none, none] ∧
    ¬ (∀ r ∈ storeD.reservations, ∃ ci co : Int,
        r.checkInDate = some ci ∧ r.checkOutDate = some co ∧ ci < co) := by
  refine ⟨by decide, by decide, by decide, by decide, ?_⟩
  intro hall
  rcases hall ⟨"R-1", "Alice", .pending, none, none⟩ (by decide) with
    ⟨ci, co, hci, hco, hlt⟩
  exact Option.noConfusion hci

/-- **C5.** Delivering a `task.created` event whose Task is not (or no
longer) `PENDING` is idempotent at the store: the step-3 claim matches no
document, the handler acks, and no document in any collection is
modified. -/
theorem c5_redelivery_noop (parseDate : String → Option Int) (self : String)
    (now : Int) (s : Store) (eid : String) (pv : TaskCreatedPayload)
    (outcome : FileOutcome)
    (h : ∀ t ∈ s.tasks, t.taskId = pv.taskId → t.status ≠ TaskStatus.pending) :
    handleTaskCreated parseDate self now (some eid) (some pv) (.ok outcome) s =
      (s, .ack) := by
  have hfind : s.tasks.find? (claimPred pv.taskId) = none := by
    rw [List.find?_eq_none]
    intro t ht
    simp only [claimPred, decide_eq_true_eq, not_and]
    exact h t ht
  simp [handleTaskCreated, claimTask, hfind]

/-- Witness for C5: redelivering against `storeB`, whose task is already
`FAILED`, changes nothing and acks. -/
theorem c5_redelivery_noop_witness :
    (∀ t ∈ storeB.tasks, t.taskId = payloadC.taskId →
      t.status ≠ TaskStatus.pending) ∧
    handleTaskCreated pdC "w-2" 30 (some "E1") (some payloadC)
      (.ok (.rows [goodRow1])) storeB = (storeB, .ack) :=
  ⟨by decide, c5_redelivery_noop pdC "w-2" 30 storeB "E1" payloadC
    (.rows [goodRow1]) (by decide)⟩

/-- **C7.** One recovery run resets every `PROCESSING` event whose
`processingAt` lies more than 60 seconds in the past back to `NEW`,
clearing `workerId` and `processingAt`, regardless of which worker held
the claim; every other event (within the threshold, unleased, or in
another status) is left unchanged. -/
theorem c7_stale_recovery (now : Int) (evs : List Event) :
    recoverStaleEvents now evs = evs.map (recoverOne now) ∧
    (∀ e : Event, e.status = EventStatus.processing →
      ∀ t, e.processingAt = some t → t < now - STALE_EVENT_THRESHOLD_SECONDS →
      recoverOne now e =
        { e with status := .new, workerId := none, processingAt := none }) ∧
    (∀ e : Event,
      (e.status ≠ EventStatus.processing ∨
        ∀ t, e.processingAt = some t →
          ¬ t < now - STALE_EVENT_THRESHOLD_SECONDS) →
      recoverOne now e = e) := by
  refine ⟨rfl, ?_, ?_⟩
  · intro e hst t hpa hlt
    unfold recoverOne
    rw [if_pos]
    exact ⟨hst, by simp [processingAtBefore, hpa, hlt]⟩
  · intro e hcond
    unfold recoverOne
    rw [if_neg]
    rintro ⟨h1, h2⟩
    rcases hcond with h3 | h3
    · exact h3 h1
    · cases hpa : e.processingAt with
      | none => simp [processingAtBefore, hpa] at h2
      | some t =>
        simp only [processingAtBefore, hpa, decide_eq_true_eq] at h2
        exact h3 t hpa h2

/-- Witness for C7: the stale event (leased by a dead worker 100 seconds
ago) is reset; the fresh one is untouched. -/
theorem c7_stale_recovery_witness :
    (staleEv.status = EventStatus.processing ∧ staleEv.processingAt = some 0 ∧
      (0 : Int) < 100 - STALE_EVENT_THRESHOLD_SECONDS) ∧
    recoverOne 100 staleEv =
      { staleEv with status := .new, workerId := none, processingAt := none } ∧
    recoverOne 100 freshEv = freshEv := by
  refine ⟨by decide, ?_, ?_⟩
  · exact (c7_stale_recovery 100 [staleEv, freshEv]).2.1 staleEv (by decide) 0
      (by decide) (by decide)
  · refine (c7_stale_recovery 100 [staleEv, freshEv]).2.2 freshEv (Or.inr ?_)
    intro t ht
    have h70 : (70 : Int) = t := Option.some.inj ht
    rw [← h70]
    decide

set_option maxRecDepth 4000 in
/-- **C6 (code bug).** The claim `updateMany` passes `{sort: {createdAt:
1}, limit: BATCH_SIZE}`, but MongoDB's multi-update supports neither
option and Mongoose silently drops both, so one tick claims EVERY `NEW`
event: over 501 `NEW` events the claimed set has 501 > `BATCH_SIZE`
elements, and over a small collection the claimed set follows collection
order (`evNew1` before the earlier-created `evNew2`), not ascending
`createdAt`; `BATCH_SIZE = 500` exists in the code but bounds nothing. -/
theorem c6_claim_tick_unbounded_unordered :
    BATCH_SIZE = 500 ∧
    (claimNewEvents "w-1" 50 manyNewEvents).2.length = 501 ∧
    ¬ ((claimNewEvents "w-1" 50 manyNewEvents).2.length ≤ BATCH_SIZE) ∧
    (claimNewEvents "w-1" 50 [evNew1, evNew2, evPub]).2 = [evNew1, evNew2] ∧
    evNew2.createdAt < evNew1.createdAt ∧
    (claimNewEvents "w-1" 50 [evNew1, evNew2, evPub]).1 =
      [claimEventUpdate "w-1" 50 evNew1, claimEventUpdate "w-1" 50 evNew2,
       evPub] := by
  have hall : ∀ e ∈ manyNewEvents,
      (fun e => decide (e.status = EventStatus.new)) e = true := by
    intro e he
    rcases List.mem_map.mp he with ⟨i, hi, rfl⟩
    rfl
  have hlen : (claimNewEvents "w-1" 50 manyNewEvents).2.length = 501 := by
    show (manyNewEvents.filter fun e =>
      decide (e.status = EventStatus.new)).length = 501
    rw [List.filter_eq_self.mpr hall]
    simp [manyNewEvents]
  refine ⟨rfl, hlen, ?_, by decide, by decide, by decide⟩
  rw [hlen]
  decide

/-- **C2.** Processing one `task.created` message is all-or-nothing over
the store: a write-conflict abort persists nothing and nacks; any other
mid-transaction failure leaves only the out-of-transaction fallback
writes; and on the normal path either the claim misses and the store is
untouched, or the commit contains, in the same resulting store, the
finalized Task (terminal, `completedAt` set, lease cleared) together with
its Event marked `PROCESSED`. -/
theorem c2_transactional_processing (parseDate : String → Option Int)
    (self : String) (now : Int) (s : Store) (eid : String)
    (pv : TaskCreatedPayload) (d : Delivery)
    (hev : ∃ ev ∈ s.events, ev.id = eid)
    (hids : (s.tasks.map Task.id).Nodup) :
    (d = .writeConflict →
      handleTaskCreated parseDate self now (some eid) (some pv) d s =
        (s, .nack)) ∧
    (∀ m, d = .crash m →
      handleTaskCreated parseDate self now (some eid) (some pv) d s =
        (fallbackWrites now eid pv.taskId m s, .ack)) ∧
    (∀ outcome, d = .ok outcome →
      ((handleTaskCreated parseDate self now (some eid) (some pv) d s).1 = s ∧
        claimTask self now pv.taskId s.tasks = none) ∨
      ((∃ t ∈ (handleTaskCreated parseDate self now (some eid) (some pv)
            d s).1.tasks,
          t.taskId = pv.taskId ∧ isTerminal t.status ∧
          t.completedAt = some now ∧ t.workerId = none ∧
          t.processingAt = none) ∧
       (∃ ev ∈ (handleTaskCreated parseDate self now (some eid) (some pv)
            d s).1.events,
          ev.id = eid ∧ ev.status = EventStatus.processed ∧
          ev.processedAt = some now))) := by
  refine ⟨?_, ?_, ?_⟩
  · rintro rfl; rfl
  · rintro m rfl; rfl
  · rintro outcome rfl
    cases hc : claimTask self now pv.taskId s.tasks with
    | none =>
      exact Or.inl ⟨by simp [handleTaskCreated, hc], rfl⟩
    | some pr =>
      refine Or.inr ?_
      obtain ⟨⟨t0, hfind, hc1⟩, hl2⟩ := claimTask_eq_some hc
      have ht0p : claimPred pv.taskId t0 = true := List.find?_some hfind
      have ht0tid : t0.taskId = pv.taskId := by
        simp only [claimPred, decide_eq_true_eq] at ht0p
        exact ht0p.1
      have hres : (handleTaskCreated parseDate self now (some eid) (some pv)
          (.ok outcome) s).1 =
          commitHandle parseDate now s eid outcome pr.1 pr.2 := by
        simp [handleTaskCreated, hc]
      constructor
      · rw [hres]
        have hmem1 : pr.1 ∈ pr.2 := by
          rw [hl2, hc1]
          exact updateFirst_of_find? hfind
        have hp2 : decide (pr.1.id = pr.1.id) = true := by simp
        obtain ⟨y, hy, hpy, hfy⟩ := exists_mem_updateFirst
          (p := fun t => decide (t.id = pr.1.id))
          (f := finalizeUpdate
            (if (bodyResults parseDate outcome).1.length > 0 then
              TaskStatus.failed else TaskStatus.completed) now
            (bodyResults parseDate outcome).1)
          hmem1 hp2
        have hidseq : (pr.2.map Task.id).Nodup := by
          rw [hl2, updateFirst_map_key (p := claimPred pv.taskId)
            (f := claimUpdate self now) Task.id (fun y => rfl)]
          exact hids
        have hyy : y = pr.1 :=
          List.inj_on_of_nodup_map hidseq hy hmem1 (of_decide_eq_true hpy)
        refine ⟨_, hfy, ?_, ?_, rfl, rfl, rfl⟩
        · show y.taskId = pv.taskId
          rw [hyy, hc1]
          exact ht0tid
        · show isTerminal (if (bodyResults parseDate outcome).1.length > 0 then
            TaskStatus.failed else TaskStatus.completed)
          exact isTerminal_final _
      · rw [hres]
        obtain ⟨ev, hevmem, hevid⟩ := hev
        have hpev : decide (ev.id = eid) = true := by simp [hevid]
        obtain ⟨y, hy, hpy, hfy⟩ := exists_mem_updateFirst
          (p := fun e => decide (e.id = eid)) (f := markEventProcessed now)
          hevmem hpev
        exact ⟨markEventProcessed now y, hfy, of_decide_eq_true hpy, rfl, rfl⟩

/-- Witness for C2: one normal delivery against the freshly created
Task/Event pair takes the commit branch, finalizing the task and marking
the event `PROCESSED` in the same store. -/
theorem c2_transactional_processing_witness :
    (∃ ev ∈ storeA.events, ev.id = "E1") ∧
    (storeA.tasks.map Task.id).Nodup ∧
    (((handleTaskCreated pdC "w-1" 20 (some "E1") (some payloadC)
        (.ok (.rows [goodRow1])) storeA).1 = storeA ∧
      claimTask "w-1" 20 payloadC.taskId storeA.tasks = none) ∨
     ((∃ t ∈ (handleTaskCreated pdC "w-1" 20 (some "E1") (some payloadC)
          (.ok (.rows [goodRow1])) storeA).1.tasks,
        t.taskId = payloadC.taskId ∧ isTerminal t.status ∧
        t.completedAt = some 20 ∧ t.workerId = none ∧ t.processingAt = none) ∧
      (∃ ev ∈ (handleTaskCreated pdC "w-1" 20 (some "E1") (some payloadC)
          (.ok (.rows [goodRow1])) storeA).1.events,
        ev.id = "E1" ∧ ev.status = EventStatus.processed ∧
        ev.processedAt = some 20))) :=
  ⟨by decide, by decide,
    (c2_transactional_processing pdC "w-1" 20 storeA "E1" payloadC
      (.ok (.rows [goodRow1])) (by decide) (by decide)).2.2
      (.rows [goodRow1]) rfl⟩

/-- **C3 (amended).** When the task processor commits the finalization of
a claimed task, it updates the Event identified by `eventId` to status
`PROCESSED` with `processedAt` set; the `error` field of every event is
left unchanged by the commit (the update passes `error: undefined`, which
Mongoose drops) -- in particular the
`{message: "Processing completed with N errors", details}` object of the
original claim is never written. -/
theorem c3_commit_event_error_unchanged (parseDate : String → Option Int)
    (self : String) (now : Int) (s : Store) (eid : String)
    (pv : TaskCreatedPayload) (outcome : FileOutcome) (pr : Task × List Task)
    (hc : claimTask self now pv.taskId s.tasks = some pr)
    (hev : ∃ ev ∈ s.events, ev.id = eid) :
    (handleTaskCreated parseDate self now (some eid) (some pv) (.ok outcome)
        s).1.events =
      updateFirst (fun e => decide (e.id = eid)) (markEventProcessed now)
        s.events ∧
    (∀ ev2 ∈ (handleTaskCreated parseDate self now (some eid) (some pv)
        (.ok outcome) s).1.events,
      ∃ ev1 ∈ s.events, ev2.id = ev1.id ∧ ev2.error = ev1.error) ∧
    (∃ ev2 ∈ (handleTaskCreated parseDate self now (some eid) (some pv)
        (.ok outcome) s).1.events,
      ev2.id = eid ∧ ev2.status = EventStatus.processed ∧
      ev2.processedAt = some now) := by
  have hres : (handleTaskCreated parseDate self now (some eid) (some pv)
      (.ok outcome) s).1 =
      commitHandle parseDate now s eid outcome pr.1 pr.2 := by
    simp [handleTaskCreated, hc]
  refine ⟨by rw [hres]; rfl, ?_, ?_⟩
  · intro ev2 h2
    rw [hres] at h2
    rcases updateFirst_mem_or h2 with hold | ⟨y, hy, hpy, rfl⟩
    · exact ⟨ev2, hold, rfl, rfl⟩
    · exact ⟨y, hy, rfl, rfl⟩
  · rw [hres]
    obtain ⟨ev, hevmem, hevid⟩ := hev
    have hpev : decide (ev.id = eid) = true := by simp [hevid]
    obtain ⟨y, hy, hpy, hfy⟩ := exists_mem_updateFirst
      (p := fun e => decide (e.id = eid)) (f := markEventProcessed now)
      hevmem hpev
    exact ⟨markEventProcessed now y, hfy, of_decide_eq_true hpy, rfl, rfl⟩

/-- Witness for C3 (amended): committing a delivery with one row error
marks the event `PROCESSED` and leaves every `error` field as it was. -/
theorem c3_commit_event_error_unchanged_witness :
    claimTask "w-1" 20 payloadC.taskId storeA.tasks = some claimedPrC ∧
    (∃ ev ∈ storeA.events, ev.id = "E1") ∧
    (∀ ev2 ∈ (handleTaskCreated pdC "w-1" 20 (some "E1") (some payloadC)
        (.ok (.rows [badRow])) storeA).1.events,
      ∃ ev1 ∈ storeA.events, ev2.id = ev1.id ∧ ev2.error = ev1.error) :=
  ⟨by decide, by decide,
    (c3_commit_event_error_unchanged pdC "w-1" 20 storeA "E1" payloadC
      (.rows [badRow]) claimedPrC (by decide) (by decide)).2.1⟩

/-- Counterexample for C3 as stated: a committed delivery that collected
one row error leaves the Event `error` field unset -- the claimed
`{message: "Processing completed with 1 errors", details: errors}` value
is not written (the code passes `error: undefined`, and the repository's
own e2e test asserts the field stays undefined). -/
theorem c3_counterexample :
    storeE.tasks.map Task.errors =
      [[⟨2, "Missing required field: reservation_id"⟩]] ∧
    storeE.tasks.map Task.status = [TaskStatus.failed] ∧
    storeE.events.map Event.error = [none] ∧
    ¬ (∃ ev ∈ storeE.events, ev.error =
        some ⟨"Processing completed with 1 errors",
          some [⟨2, "Missing required field: reservation_id"⟩], none⟩) := by
  decide

/-- **C8 (amended).** Within a single file, at most one row per
`reservation_id` is upserted -- the first occurrence that passes
validation -- and once some occurrence has been upserted, a later
occurrence of the same id that passes the required-field presence checks
is reported as a duplicate row error and skipped.  (An occurrence failing
its own field validation is reported with that error instead, and an
invalid first occurrence is never upserted.) -/
theorem c8_first_valid_occurrence_wins (parseDate : String → Option Int) :
    (∀ rows : List Row,
      ((upsertsOf (rowActions parseDate 2 [] rows)).map
        ReservationWrite.reservationId).Nodup) ∧
    (∀ (pre : List Row) (row : Row) (post : List Row) (rid : String),
      (∃ u ∈ upsertsOf (rowActions parseDate 2 [] pre),
        u.reservationId = rid) →
      requiredPresent row → row.reservation_id.getD "" = rid →
      rowActions parseDate 2 [] (pre ++ row :: post) =
        rowActions parseDate 2 [] pre ++
          RowAction.err ⟨2 + pre.length, dupMsg rid⟩ ::
            rowActions parseDate (2 + pre.length + 1)
              (seenAfter parseDate 2 [] pre) post) := by
  constructor
  · intro rows
    exact (upserts_facts parseDate rows 2 []).2
  · intro pre row post rid hex hpres hrid
    obtain ⟨u, hu, huid⟩ := hex
    have hact : RowAction.upsert u ∈ rowActions parseDate 2 [] pre :=
      mem_upsertsOf.mp hu
    have hseen : rid ∈ seenAfter parseDate 2 [] pre := by
      rw [← huid]
      exact upsert_mem_seenAfter parseDate pre 2 [] u hact
    rw [rowActions_append]
    congr 1
    simp only [rowActions]
    rw [processRow_dup parseDate _ _ row hpres (by rw [hrid]; exact hseen)]
    rw [hrid]
    rfl

/-- Witness for C8 (amended): after the valid first occurrence of `R-1`,
a later present-field occurrence is reported as the row-3 duplicate. -/
theorem c8_first_valid_occurrence_wins_witness :
    (∃ u ∈ upsertsOf (rowActions pdC 2 [] [goodRow1]),
      u.reservationId = "R-1") ∧
    requiredPresent dupRow ∧ dupRow.reservation_id.getD "" = "R-1" ∧
    rowActions pdC 2 [] ([goodRow1] ++ dupRow :: []) =
      rowActions pdC 2 [] [goodRow1] ++
        RowAction.err ⟨2 + [goodRow1].length, dupMsg "R-1"⟩ ::
          rowActions pdC (2 + [goodRow1].length + 1)
            (seenAfter pdC 2 [] [goodRow1]) [] :=
  ⟨by decide, by decide, by decide,
    (c8_first_valid_occurrence_wins pdC).2 [goodRow1] dupRow [] "R-1"
      (by decide) (by decide) (by decide)⟩

/-- Counterexample for C8 as stated: when the first occurrence of `A-1`
is itself invalid (missing guest name), the second occurrence is upserted
rather than reported as a duplicate, so "the first occurrence wins and
every subsequent occurrence is reported as a duplicate row error and
skipped" fails on this file. -/
theorem c8_counterexample :
    rowActions pdC 2 [] [invalidFirstRow, validSecondRow] =
      [RowAction.err ⟨2, "Missing required field: guest_name"⟩,
       RowAction.upsert ⟨"A-1", "Dave", 0, 86400, .pending⟩] ∧
    RowAction.err ⟨3, dupMsg "A-1"⟩ ∉
      rowActions pdC 2 [] [invalidFirstRow, validSecondRow] ∧
    upsertsOf (rowActions pdC 2 [] [invalidFirstRow, validSecondRow]) =
      [⟨"A-1", "Dave", 0, 86400, .pending⟩] := by
  decide

/-- **C1 (code bug).** For an outbox Event created by the upload
assembler, the dispatcher publishes to `Exchange.EVENTS` with routing key
`task.created.event` and the persistent flag, but the message body is
only `{eventId}`: the spread `...(event as any).payload` reads a
`payload` key the Event document does not have (the envelope is stored
under `event`), so the published object carries neither `eventName` nor
`payload`, contradicting the documented envelope. -/
theorem c1_published_message_lacks_envelope :
    (publishForEvent exampleOutboxEvent).routingKey = taskCreatedEventName ∧
    (publishForEvent exampleOutboxEvent).exchange = Exchange.EVENTS ∧
    (publishForEvent exampleOutboxEvent).persistent = true ∧
    msgGet exampleOutboxEvent "eventId" = some (.str "665f0001") ∧
    msgGet exampleOutboxEvent "eventName" = none ∧
    msgGet exampleOutboxEvent "payload" = none ∧
    jsGet (eventDocFields exampleOutboxEvent) "payload" = none ∧
    jsGet (eventDocFields exampleOutboxEvent) "event" =
      some (envelopeJson ⟨taskCreatedEventName, payloadC⟩) :=
  ⟨rfl, rfl, rfl, rfl, rfl, rfl, rfl, rfl⟩

/-- **C10 (code bug).** After the assembler handles a chunk, the cache
entry `upload:<uploadId>` holds the session but carries NO time-to-live:
the chunk-0 `SET`+`EXPIRE` arms a 86400-second TTL, but the unconditional
re-persist after the part upload is a plain `SET`, which discards it --
on the first chunk and on every later chunk. -/
theorem c10_session_ttl_lost :
    UPLOAD_SESSION_TTL = 86400 ∧
    cacheTtl "upload:u-1" cacheAfterChunk0 = some none ∧
    cacheTtl "upload:u-1" cacheAfterChunk1 = some none ∧
    cacheGet "upload:u-1" cacheAfterChunk1 =
      some { s3UploadId := "s3-up-1",
             bucketFilePath := "uploads/uuid-1/reservations.xlsx",
             totalChunks := 2, originalFileName := "reservations.xlsx",
             mimeType := xlsxMime,
             uploadedParts := [⟨1, "etag-1"⟩, ⟨2, "etag-2"⟩] } :=
  ⟨rfl, rfl, rfl, rfl⟩

end SmartHotel
